import Mathlib

/-!
Shallow embedding of the x402 Luma Event Search bot (Discord/Telegram
payment-gated summariser) and proofs about the claims of its specification.

Text is modelled as `List Char`; the JavaScript regex transforms used by the
callback dispatcher are translated into specialised scanners, one per regex,
with JS `String.prototype.replace` scanning semantics (leftmost match, global
scans resume after the end of each match, `^` with the `m` flag anchors at
line starts of the original string).  The JS whitespace class is modelled on
its ASCII subset, which is exact for all texts considered here.
-/

set_option autoImplicit false

/-- ASCII subset of the JS whitespace class used by regex \s and trim. -/
def isWsChar (c : Char) : Bool :=
  c = ' ' || c = '\t' || c = '\n' || c = '\r' || c = '\x0b' || c = '\x0c'

/-- Case-sensitive literal prefix test on character lists. -/
def pfx : List Char → List Char → Bool
  | [], _ => true
  | _ :: _, [] => false
  | a :: as, b :: bs => a = b && pfx as bs

/-- Case-insensitive (ASCII folding, as JS regex /i on ASCII literals) prefix test. -/
def pfxCI : List Char → List Char → Bool
  | [], _ => true
  | _ :: _, [] => false
  | a :: as, b :: bs => a.toLower = b.toLower && pfxCI as bs

/-- Prefix test against a string literal pattern. -/
def pfxS (p : String) (l : List Char) : Bool := pfx p.data l

/-- Case-insensitive prefix test against a string literal pattern. -/
def pfxCIS (p : String) (l : List Char) : Bool := pfxCI p.data l

/-- Length of the maximal leading whitespace run (greedy \s*). -/
def wsRun : List Char → Nat
  | [] => 0
  | c :: cs => if isWsChar c then wsRun cs + 1 else 0

/-- Length of the maximal leading newline run. -/
def nlRun : List Char → Nat
  | [] => 0
  | c :: cs => if c = '\n' then nlRun cs + 1 else 0

/-- Length of the rest of the current line (greedy [^\n]*). -/
def lineLen : List Char → Nat
  | [] => 0
  | c :: cs => if c = '\n' then 0 else lineLen cs + 1

/-- First index at which the pattern occurs case-insensitively (lazy search). -/
def findCI (p : String) : List Char → Option Nat
  | [] => if pfxCIS p [] then some 0 else none
  | c :: cs => if pfxCIS p (c :: cs) then some 0 else (findCI p cs).map (· + 1)

/-- Whether the pattern occurs case-insensitively anywhere. -/
def containsCI (p : String) (l : List Char) : Bool := (findCI p l).isSome

/-- First index of a newline, with the guarantee that no newline precedes it. -/
def findNl : List Char → Option Nat
  | [] => none
  | c :: cs => if c = '\n' then some 0 else (findNl cs).map (· + 1)

/-- Maximal leading run of non-whitespace characters (greedy [^\s]*). -/
def takeNonWs : List Char → List Char
  | [] => []
  | c :: cs => if isWsChar c then [] else c :: takeNonWs cs

/-- Maximal leading run of characters other than a closing bracket (greedy [^\]]*). -/
def takeNotRb : List Char → List Char
  | [] => []
  | c :: cs => if c = ']' then [] else c :: takeNotRb cs

/-- Exactly n leading decimal digits. -/
def nDigits : Nat → List Char → Bool
  | 0, _ => true
  | _ + 1, [] => false
  | n + 1, c :: cs => c.isDigit && nDigits n cs

/-- Whether the list contains four consecutive decimal digits. -/
def has4Digits : List Char → Bool
  | a :: b :: c :: d :: rest =>
    (a.isDigit && b.isDigit && c.isDigit && d.isDigit) || has4Digits (b :: c :: d :: rest)
  | _ => false

/-- Whether the head equals the given character. -/
def headIs (c : Char) : List Char → Bool
  | [] => false
  | x :: _ => x = c

/-- Whether the list ends with a newline. -/
def endsNl : List Char → Bool
  | [] => false
  | [c] => c = '\n'
  | _ :: c :: cs => endsNl (c :: cs)

/-- JS String.prototype.trimStart on the ASCII whitespace subset. -/
def trimL : List Char → List Char
  | [] => []
  | c :: cs => if isWsChar c then trimL cs else c :: cs

/-- JS String.prototype.trimEnd. -/
def trimR (l : List Char) : List Char := (trimL l.reverse).reverse

/-- JS String.prototype.trim. -/
def trimBoth (l : List Char) : List Char := trimR (trimL l)

/-- Split on newlines: n newlines give n+1 pieces, none containing a newline. -/
def splitNl : List Char → List (List Char)
  | [] => [[]]
  | c :: cs =>
    if c = '\n' then [] :: splitNl cs
    else
      match splitNl cs with
      | [] => [[c]]
      | l :: ls => (c :: l) :: ls

/-- Join pieces with newlines; left inverse of splitNl. -/
def joinNl : List (List Char) → List Char
  | [] => []
  | [l] => l
  | l :: ls => l ++ '\n' :: joinNl ls

/-- Number of positions at which the pattern occurs (literal, case-sensitive). -/
def occCount (p : List Char) : List Char → Nat
  | [] => 0
  | c :: cs => (if pfx p (c :: cs) then 1 else 0) + occCount p cs

/-!
Generic scanners reproducing JS `String.prototype.replace` behaviour.  A
matcher receives the line-start flag and the current suffix of the original
text and returns the matched length together with the replacement text.  All
matchers below match at least one character, so fuel equal to the input
length always suffices.
-/

/-- One global replace pass (regex with the g flag), fuelled. -/
def scanReplGo (step : Bool → List Char → Option (Nat × List Char)) :
    Nat → Bool → List Char → List Char
  | 0, _, l => l
  | _ + 1, _, [] => []
  | fuel + 1, ls, c :: cs =>
    match step ls (c :: cs) with
    | some (n, r) =>
      let m := max n 1
      r ++ scanReplGo step fuel (endsNl ((c :: cs).take m)) ((c :: cs).drop m)
    | none => c :: scanReplGo step fuel (c = '\n') cs

/-- Global replace (regex with the g flag). -/
def scanRepl (step : Bool → List Char → Option (Nat × List Char))
    (l : List Char) : List Char :=
  scanReplGo step l.length true l

/-- First-match-only replace (regex without the g flag). -/
def replFirst (step : Bool → List Char → Option (Nat × List Char)) :
    Bool → List Char → List Char
  | _, [] => []
  | ls, c :: cs =>
    match step ls (c :: cs) with
    | some (n, r) => r ++ (c :: cs).drop (max n 1)
    | none => c :: replFirst step (c = '\n') cs

/-- Whether the scan is the identity: every fired match replaces itself. -/
def scanFixGo (step : Bool → List Char → Option (Nat × List Char)) :
    Nat → Bool → List Char → Bool
  | 0, _, _ => true
  | _ + 1, _, [] => true
  | fuel + 1, ls, c :: cs =>
    match step ls (c :: cs) with
    | some (n, r) =>
      let m := max n 1
      decide (r = (c :: cs).take m) &&
        scanFixGo step fuel (endsNl ((c :: cs).take m)) ((c :: cs).drop m)
    | none => scanFixGo step fuel (c = '\n') cs

/-- Whether the whole scan of l is the identity. -/
def scanFix (step : Bool → List Char → Option (Nat × List Char))
    (l : List Char) : Bool :=
  scanFixGo step l.length true l

/-!
Matchers for the dispatcher sanitization chain
(handleDiscordCallback / handleTelegramCallback).
-/

/-- Greeting line head: "Good morning!" / "Good afternoon!" / "Good evening!". -/
def greetHead (l : List Char) : Bool :=
  pfxS "Good morning!" l || pfxS "Good afternoon!" l || pfxS "Good evening!" l

/-- Take the rest of the current line. -/
def takeLine : List Char → List Char
  | [] => []
  | c :: cs => if c = '\n' then [] else c :: takeLine cs

/-- Bullet-greeting fix, the first sanitization regex: a line-start bullet
followed by whitespace and a greeting is replaced by the greeting line. -/
def mBulletGreeting (ls : Bool) (l : List Char) : Option (Nat × List Char) :=
  if ls then
    match l with
    | '•' :: rest =>
      let w := wsRun rest
      let after := rest.drop w
      if greetHead after then
        let g := takeLine after
        some (1 + w + g.length, g)
      else none
    | _ => none
  else none

/-- The "Hello! Here is what happened" line removal (case-insensitive,
first match only, optional trailing newline consumed). -/
def mHello (ls : Bool) (l : List Char) : Option (Nat × List Char) :=
  if ls then
    if pfxCIS "hello!" l then
      let r1 := l.drop 6
      let w := wsRun r1
      let r2 := r1.drop w
      if pfxCIS "here is what happened" r2 then
        let rest := r2.drop 21
        let ln := lineLen rest
        let nl := if headIs '\n' (rest.drop ln) then 1 else 0
        some (6 + w + 21 + ln + nl, [])
      else none
    else none
  else none

/-- Line-start "checkmark Payment Confirmed/Required" removal; the trailing
greedy \s* swallows the whole following whitespace run. -/
def mPay1 (ls : Bool) (l : List Char) : Option (Nat × List Char) :=
  if ls then
    match l with
    | '✅' :: rest =>
      let w := wsRun rest
      let r2 := rest.drop w
      if pfxCIS "payment " r2 then
        let r3 := r2.drop 8
        let k := if pfxCIS "confirmed" r3 then some 9
                 else if pfxCIS "required" r3 then some 8
                 else none
        match k with
        | some kk => some (1 + w + 8 + kk + wsRun (r3.drop kk), [])
        | none => none
      else none
    | _ => none
  else none

/-- Card-emoji "**Payment Required** ... automatically." block removal; the
lazy [\s\S]*? stops at the nearest "automatically.". -/
def mPay2 (_ : Bool) (l : List Char) : Option (Nat × List Char) :=
  match l with
  | '💳' :: rest =>
    let w := wsRun rest
    let r2 := rest.drop w
    if pfxCIS "**payment required**" r2 then
      match findCI "automatically." (r2.drop 20) with
      | some j => some (1 + w + 20 + j + 14, [])
      | none => none
    else none
  | _ => none

/-- Link-emoji "**Pay ... " line removal up to and including the newline. -/
def mPay3 (_ : Bool) (l : List Char) : Option (Nat × List Char) :=
  match l with
  | '🔗' :: rest =>
    let w := wsRun rest
    let r2 := rest.drop w
    if pfxCIS "**pay" r2 then
      match findNl (r2.drop 5) with
      | some j => some (1 + w + 5 + j + 1, [])
      | none => none
    else none
  | _ => none

/-- Removal of http(s) URLs whose non-whitespace run contains "pay". -/
def mUrl (_ : Bool) (l : List Char) : Option (Nat × List Char) :=
  let p : Option Nat :=
    if pfxCIS "https://" l then some 8
    else if pfxCIS "http://" l then some 7
    else none
  match p with
  | some n0 =>
    let run := takeNonWs (l.drop n0)
    if containsCI "pay" run then some (n0 + run.length, []) else none
  | none => none

/-- Removal of the leaked payment prompt sentence; the lazy .*? cannot cross
a newline, so the terminator must lie on the same line. -/
def mPayText (_ : Bool) (l : List Char) : Option (Nat × List Char) :=
  if pfxCIS "to summarise this channel, please pay" l then
    let rest := l.drop 37
    match findCI "via x402." (takeLine rest) with
    | some j => some (37 + j + 9, [])
    | none => none
  else none

/-- Bracketed ISO timestamp removal. -/
def mIsoTs (_ : Bool) (l : List Char) : Option (Nat × List Char) :=
  match l with
  | '[' :: rest =>
    if nDigits 4 rest && headIs '-' (rest.drop 4) && nDigits 2 (rest.drop 5) &&
        headIs '-' (rest.drop 7) && nDigits 2 (rest.drop 8) && headIs 'T' (rest.drop 10) then
      let run := takeNotRb (rest.drop 11)
      if decide (1 ≤ run.length) && headIs ']' ((rest.drop 11).drop run.length) then
        some (1 + 11 + run.length + 1, [])
      else none
    else none
  | _ => none

/-- Removal of any bracketed fragment containing four consecutive digits. -/
def mAnyTs (_ : Bool) (l : List Char) : Option (Nat × List Char) :=
  match l with
  | '[' :: rest =>
    let run := takeNotRb rest
    if headIs ']' (rest.drop run.length) && has4Digits run then
      some (1 + run.length + 1, [])
    else none
  | _ => none

/-- Removal of an "x402 Summariser ..." fragment up to the end of its line. -/
def mX402 (_ : Bool) (l : List Char) : Option (Nat × List Char) :=
  if pfxCIS "x402 summariser" l then
    let rest := l.drop 15
    let ln := lineLen rest
    let nl := if headIs '\n' (rest.drop ln) then 1 else 0
    some (15 + ln + nl, [])
  else none

/-- Blank-line collapsing: a maximal run of two or more newlines becomes two. -/
def mCollapse (_ : Bool) (l : List Char) : Option (Nat × List Char) :=
  match l with
  | '\n' :: '\n' :: rest => some (2 + nlRun rest, ['\n', '\n'])
  | _ => none

/-!
Duplicate-greeting removal.  The regex is anchored at line starts and its
match is the whole rest of the line, so the global replace with the
keep-first callback acts line by line: the first greeting line is kept and
every later greeting line has its content deleted (the newline survives).
-/

/-- The keep-first walk of the duplicate-greeting global replace. -/
def dedupLines : Bool → List (List Char) → List (List Char)
  | _, [] => []
  | seen, l :: ls =>
    if greetHead l then
      if seen then [] :: dedupLines true ls else l :: dedupLines true ls
    else l :: dedupLines seen ls

/-- The duplicate-greeting global replace (before blank-line collapsing). -/
def dedupGreetings (l : List Char) : List Char :=
  joinNl (dedupLines false (splitNl l))

/-- The greeting lines of a text, in order (the line-start matches of the
duplicate-greeting regex). -/
def greetLines (l : List Char) : List (List Char) :=
  (splitNl l).filter greetHead

/-!
The sanitization chains, in the order of the source: bullet-greeting fix;
duplicate-greeting removal with blank-line collapsing and trim; "Hello!"
line removal; payment-fragment removals with trim; and, for Discord only,
timestamp and "x402 Summariser" removals with trim.
-/

/-- The sanitization steps shared by both platforms. -/
def sanitizeCommonL (l : List Char) : List Char :=
  let s1 := replFirst mBulletGreeting true l
  let s2 := trimBoth (scanRepl mCollapse (dedupGreetings s1))
  let s3 := replFirst mHello true s2
  trimBoth (scanRepl mPayText (scanRepl mUrl (scanRepl mPay3 (scanRepl mPay2 (scanRepl mPay1 s3)))))

/-- The full Discord sanitization chain (adds the timestamp removals). -/
def sanitizeDiscordL (l : List Char) : List Char :=
  trimBoth (scanRepl mX402 (scanRepl mAnyTs (scanRepl mIsoTs (sanitizeCommonL l))))

/-- The full Discord sanitization chain on strings. -/
def sanitizeDiscord (s : String) : String := ⟨sanitizeDiscordL s.data⟩

/-- Canned replacement for a summary that is empty after sanitization. -/
def NO_CONTENT : String := "No material updates or chatter in this window."

/-- Message text of the Telegram summarise delivery: initial trim, common
sanitization, canned fallback when empty, final trim. -/
def telegramSummariseTextL (raw : List Char) : List Char :=
  let summary := sanitizeCommonL (trimBoth raw)
  let summary := if summary = [] then NO_CONTENT.data else summary
  trimBoth summary

/-- Telegram summarise delivery text on strings. -/
def telegramSummariseText (s : String) : String := ⟨telegramSummariseTextL s.data⟩

/-- The summary extracted by the Discord callback: a missing or empty
output.summary defaults, through the JS or-chain, to "No summary available". -/
def discordRawSummary (raw : List Char) : List Char :=
  if raw = [] then ("No summary available").data else raw

/-- Content of the Discord delivery: missing summary defaults, Discord
sanitization, canned fallback when empty, final trim. -/
def discordContentL (raw : List Char) : List Char :=
  let summary := sanitizeDiscordL (discordRawSummary raw)
  let summary := if summary = [] then NO_CONTENT.data else summary
  trimBoth summary

/-- Discord delivery content on strings. -/
def discordContent (s : String) : String := ⟨discordContentL s.data⟩

/-!
Registries.  The pending maps (pendingDiscordCallbacks,
pendingTelegramCallbacks, searchState, the Telegram message store) are JS
Maps, modelled as insertion-ordered association lists with JS Map semantics:
set updates an existing key in place or appends, delete removes the entry,
get returns the first binding.
-/

/-- JS Map.prototype.get. -/
def rget {κ α : Type} [DecidableEq κ] : List (κ × α) → κ → Option α
  | [], _ => none
  | p :: ps, k => if p.1 = k then some p.2 else rget ps k

/-- JS Map.prototype.set. -/
def rset {κ α : Type} [DecidableEq κ] : List (κ × α) → κ → α → List (κ × α)
  | [], k, v => [(k, v)]
  | p :: ps, k, v => if p.1 = k then (k, v) :: ps else p :: rset ps k v

/-- JS Map.prototype.delete. -/
def rdelete {κ α : Type} [DecidableEq κ] : List (κ × α) → κ → List (κ × α)
  | [], _ => []
  | p :: ps, k => if p.1 = k then rdelete ps k else p :: rdelete ps k

/-- Pending Discord callback entry (src/pending.ts, DiscordCallbackData). -/
structure DiscordCallbackData where
  applicationId : String
  channelId : String
  guildId : Option String
  lookbackMinutes : Nat
  paymentMessageId : Option String
  expiresAt : Int
deriving DecidableEq, Repr

/-- Pending Telegram callback entry (src/pending.ts, TelegramCallbackData). -/
structure TelegramCallbackData where
  chatId : Int
  threadId : Option Int
  messageId : Option Int
  paymentMessageId : Option Int
  username : Option String
  lookbackMinutes : Option Nat
  topic : Option String
  location : Option String
  expiresAt : Int
deriving DecidableEq, Repr

/-- A Luma event as stored for pagination (src/pending.ts, SearchState.events). -/
structure LumaEvent where
  id : String
  title : String
  url : String
  description : Option String
  location : Option String
  date : Option String
  attendeeCount : Option Nat
deriving DecidableEq, Repr

/-- Per-chat pagination state (src/pending.ts, SearchState). -/
structure SearchState where
  events : List LumaEvent
  topic : String
  location : Option String
  offset : Nat
  expiresAt : Int
deriving DecidableEq, Repr

/-- The worker result body as read by the Telegram callback handler. -/
structure TgWorkerOutput where
  formattedMessage : Option String
  text : Option String
  summary : Option String
  events : Option (List LumaEvent)
  allEvents : Option (List LumaEvent)
deriving DecidableEq, Repr

/-- Outcome of a callback dispatch: either the 404 no-op for an unknown
token, or a delivery of the given message text to the platform. -/
inductive CbOutcome where
  | notFound
  | delivered (text : String)
deriving DecidableEq, Repr

/-- Number of platform deliveries initiated by an outcome (the in-budget
send and its single best-effort retry belong to one initiated delivery). -/
def postsOf : CbOutcome → Nat
  | .notFound => 0
  | .delivered _ => 1

/-- JS or-chain (a || b || ""): a missing field and an empty string are both
falsy, so the first present, nonempty string wins. -/
def firstSome (a b : Option String) : String :=
  match a with
  | some s =>
    if s = "" then
      match b with
      | some t => t
      | none => ""
    else s
  | none =>
    match b with
    | some t => t
    | none => ""

/-- handleDiscordCallback: look the (already URL-decoded) token up, return
404 without any platform call when absent, otherwise delete the entry first
and deliver the sanitized content.  The summary argument is the extracted
output.summary, with a missing field modelled as the empty string. -/
def handleDiscordCallbackM (reg : List (String × DiscordCallbackData))
    (token : String) (summary : String) :
    List (String × DiscordCallbackData) × CbOutcome :=
  match rget reg token with
  | none => (reg, .notFound)
  | some _ => (rdelete reg token, .delivered (discordContent summary))

/-- Message text of the Telegram search-events delivery. -/
def telegramSearchText (out : TgWorkerOutput) : String :=
  let m := ⟨trimBoth (firstSome out.formattedMessage out.text).data⟩
  if m = "" then "No events found. Please try a different search query." else m

/-- The searchState update performed by the Telegram search callback:
events from the result (allEvents if present) are materialised at offset 0
with a one-hour expiry, if nonempty. -/
def telegramSearchStateUpdate (sst : List (Int × SearchState)) (now : Int)
    (cd : TelegramCallbackData) (tp : String) (out : TgWorkerOutput) :
    List (Int × SearchState) :=
  match out.events with
  | none => sst
  | some evs =>
    let allEvents := out.allEvents.getD evs
    if 0 < allEvents.length then
      rset sst cd.chatId
        { events := allEvents, topic := tp, location := cd.location,
          offset := 0, expiresAt := now + 60 * 60 * 1000 }
    else sst

/-- handleTelegramCallback: look the (already URL-decoded) token up, return
404 without any platform call when absent, otherwise delete the entry first,
then branch on whether the pending entry carries a topic (search) or not
(summarise). -/
def handleTelegramCallbackM (reg : List (String × TelegramCallbackData))
    (sst : List (Int × SearchState)) (now : Int)
    (token : String) (out : TgWorkerOutput) :
    List (String × TelegramCallbackData) × List (Int × SearchState) × CbOutcome :=
  match rget reg token with
  | none => (reg, sst, .notFound)
  | some cd =>
    let reg' := rdelete reg token
    match cd.topic with
    | some tp =>
      (reg', telegramSearchStateUpdate sst now cd tp out,
        .delivered (telegramSearchText out))
    | none =>
      (reg', sst,
        .delivered (telegramSummariseText (firstSome out.summary out.text)))

/-- The periodic sweep over the Discord pending map: every entry with
expiresAt strictly in the past is deleted. -/
def sweepDiscord (reg : List (String × DiscordCallbackData)) (now : Int) :
    List (String × DiscordCallbackData) :=
  reg.filter (fun p => !(p.2.expiresAt < now))

/-- The periodic sweep over the Telegram pending map. -/
def sweepTelegram (reg : List (String × TelegramCallbackData)) (now : Int) :
    List (String × TelegramCallbackData) :=
  reg.filter (fun p => !(p.2.expiresAt < now))

/-- The registry insertion performed by Telegram Command Intake
(bot.command summarise / search_events): a plain JS Map.set. -/
def recordPendingTelegram (reg : List (String × TelegramCallbackData))
    (token : String) (e : TelegramCallbackData) :
    List (String × TelegramCallbackData) :=
  rset reg token e

/-- The registry insertion performed by Discord Command Intake
(handleDiscordInteraction): a plain JS Map.set. -/
def recordPendingDiscord (reg : List (String × DiscordCallbackData))
    (token : String) (e : DiscordCallbackData) :
    List (String × DiscordCallbackData) :=
  rset reg token e

/-!
Pagination: the /more command (src/telegram.ts, bot.command more).
-/

/-- JS Array.prototype.slice with two nonnegative indices. -/
def jsSlice {α : Type} (l : List α) (a b : Nat) : List α :=
  (l.take b).drop a

/-- Reply of the /more command.  The page constructor carries the slice of
events handed to formatEventsForTelegram together with the total and the
new offset. -/
inductive MoreReply where
  | noRecent
  | exhausted
  | page (slice : List LumaEvent) (total : Nat) (offset : Nat)
deriving DecidableEq, Repr

/-- bot.command more: missing or expired state replies noRecent and leaves
everything unchanged; an offset advanced past the end replies exhausted and
leaves the state unchanged; otherwise the next five events are sliced, the
offset moves to nextOffset and the expiry is extended by one hour. -/
def handleMore (st : Option SearchState) (now : Int) :
    Option SearchState × MoreReply :=
  match st with
  | none => (none, .noRecent)
  | some s =>
    if s.expiresAt < now then (some s, .noRecent)
    else
      let nextOffset := s.offset + 5
      if s.events.length ≤ nextOffset then (some s, .exhausted)
      else
        (some { s with offset := nextOffset, expiresAt := now + 60 * 60 * 1000 },
          .page (jsSlice s.events nextOffset (nextOffset + 5)) s.events.length nextOffset)

/-!
The payment gate fronting the entrypoints (Bun.serve fetch, the
/entrypoints/... /invoke interception).  Facilitator, payment decoding and
the worker are external collaborators, passed in as an environment; a
thrown facilitator call is modelled as none.
-/

/-- A single x402 payment requirement as built per request. -/
structure PaymentRequirement where
  scheme : String
  resource : String
  description : String
  mimeType : String
  payTo : String
  maxAmountRequired : String
  maxTimeoutSeconds : Nat
  network : String
  asset : String
  extraName : String
  extraVersion : String
deriving DecidableEq, Repr

/-- The requirement built from configuration for one request. -/
def mkPaymentRequirement (sourceLabel payToAddress fullEntrypointUrl price currency : String) :
    PaymentRequirement :=
  { scheme := "exact"
    resource := fullEntrypointUrl
    description := sourceLabel ++ " - Pay $" ++ price ++ " " ++ currency
    mimeType := "application/json"
    payTo := payToAddress
    maxAmountRequired := "50000"
    maxTimeoutSeconds := 300
    network := "base"
    asset := "0x833589fCD6eDb6E08f4c7C32D4f71b54bdA02913"
    extraName := "USD Coin"
    extraVersion := "2" }

/-- An opaque decoded X-PAYMENT payload. -/
structure DecodedPayment where
  payload : String
deriving DecidableEq, Repr

/-- Facilitator verification result. -/
structure VerifyResult where
  isValid : Bool
  invalidReason : Option String
  payer : Option String
deriving DecidableEq, Repr

/-- Facilitator settlement result; header is the settleResponseHeader value. -/
structure SettleResult where
  success : Bool
  header : String
deriving DecidableEq, Repr

/-- Worker (app.fetch) response. -/
structure AppResponse where
  status : Nat
  body : String
deriving DecidableEq, Repr

/-- External collaborators of the gate; a none result models a thrown call. -/
structure GateEnv where
  decodePayment : String → Option DecodedPayment
  findMatching : List PaymentRequirement → DecodedPayment → Option PaymentRequirement
  verify : DecodedPayment → PaymentRequirement → Option VerifyResult
  appFetch : Unit → AppResponse
  settle : DecodedPayment → PaymentRequirement → Option SettleResult

/-- Response of the gate. -/
inductive GateResponse where
  | paymentRequired (accepts : List PaymentRequirement)
  | invalidHeader (accepts : List PaymentRequirement)
  | requirementsMismatch (accepts : List PaymentRequirement)
  | verifyTransportError (accepts : List PaymentRequirement)
  | verifyInvalid (reason : Option String) (accepts : List PaymentRequirement)
  | appError (status : Nat) (body : String)
  | result (status : Nat) (body : String) (paymentResponse : Option String)
deriving DecidableEq, Repr

/-- HTTP status of a gate response; every 402 variant is a payment challenge. -/
def gateStatus : GateResponse → Nat
  | .paymentRequired _ => 402
  | .invalidHeader _ => 402
  | .requirementsMismatch _ => 402
  | .verifyTransportError _ => 402
  | .verifyInvalid _ _ => 402
  | .appError s _ => s
  | .result s _ _ => s

/-- The entrypoint payment gate: build one requirement, challenge when the
X-PAYMENT header is absent, otherwise decode, match, verify, invoke the
worker, and attempt best-effort settlement; a settlement failure only omits
the X-PAYMENT-RESPONSE header.  The second component counts worker
invocations. -/
def entrypointGate (env : GateEnv)
    (sourceLabel payToAddress fullEntrypointUrl price currency : String)
    (header : Option String) : GateResponse × Nat :=
  let accepts := [mkPaymentRequirement sourceLabel payToAddress fullEntrypointUrl price currency]
  match header with
  | none => (.paymentRequired accepts, 0)
  | some h =>
    match env.decodePayment h with
    | none => (.invalidHeader accepts, 0)
    | some payment =>
      match env.findMatching accepts payment with
      | none => (.requirementsMismatch accepts, 0)
      | some selected =>
        match env.verify payment selected with
        | none => (.verifyTransportError accepts, 0)
        | some v =>
          if v.isValid then
            let app := env.appFetch ()
            if 400 ≤ app.status then (.appError app.status app.body, 1)
            else
              match env.settle payment selected with
              | none => (.result app.status app.body none, 1)
              | some st =>
                if st.success then (.result app.status app.body (some st.header), 1)
                else (.result app.status app.body none, 1)
          else (.verifyInvalid v.invalidReason accepts, 0)

/-!
The Telegram message store (telegramStore.ts).
-/

/-- A stored Telegram message. -/
structure TelegramStoredMessage where
  messageId : Int
  text : String
  timestampMs : Int
  authorId : Option Int
  authorUsername : Option String
  authorDisplay : Option String
  replyToMessageId : Option Int
deriving DecidableEq, Repr

/-- Cap on stored messages per chat. -/
def MAX_MESSAGES_PER_CHAT : Nat := 1000

/-- addTelegramMessage: push, then splice the front down to the cap. -/
def addTelegramMessage (store : List (Int × List TelegramStoredMessage))
    (chatId : Int) (message : TelegramStoredMessage) :
    List (Int × List TelegramStoredMessage) :=
  let existing := (rget store chatId).getD []
  let pushed := existing ++ [message]
  let capped :=
    if MAX_MESSAGES_PER_CHAT < pushed.length then
      pushed.drop (pushed.length - MAX_MESSAGES_PER_CHAT)
    else pushed
  rset store chatId capped

/-- getTelegramMessages. -/
def getTelegramMessages (store : List (Int × List TelegramStoredMessage))
    (chatId : Int) : List TelegramStoredMessage :=
  (rget store chatId).getD []

/-- The last MAX_MESSAGES_PER_CHAT elements of a list. -/
def capTail {α : Type} (l : List α) : List α :=
  l.drop (l.length - MAX_MESSAGES_PER_CHAT)

/-- The messages a sequence of (chatId, message) operations adds to one chat. -/
def chatSeq (ops : List (Int × TelegramStoredMessage)) (chatId : Int) :
    List TelegramStoredMessage :=
  ops.filterMap (fun p => if p.1 = chatId then some p.2 else none)

/-- Replay of a sequence of adds against the empty store. -/
def replayAdds (ops : List (Int × TelegramStoredMessage)) :
    List (Int × List TelegramStoredMessage) :=
  ops.foldl (fun acc p => addTelegramMessage acc p.1 p.2) []

/-!
Concrete sample data used by closed witnesses and counterexamples.
-/

/-- A concrete pending Telegram entry (summarise flavour, no topic). -/
def tgEntryW : TelegramCallbackData :=
  { chatId := 7, threadId := none, messageId := some 3, paymentMessageId := some 4,
    username := some "alice", lookbackMinutes := some 60, topic := none,
    location := none, expiresAt := 1000 }

/-- A second entry for the same token, differing in its parameters. -/
def tgEntryW2 : TelegramCallbackData := { tgEntryW with lookbackMinutes := some 120 }

/-- A concrete pending Discord entry whose expiry also lies at time 1000. -/
def dcEntryW : DiscordCallbackData :=
  { applicationId := "app", channelId := "chan", guildId := some "guild",
    lookbackMinutes := 60, paymentMessageId := some "9", expiresAt := 1000 }

/-- A concrete worker output with a short summary. -/
def outW : TgWorkerOutput :=
  { formattedMessage := none, text := none, summary := some "All quiet.",
    events := none, allEvents := none }

/-- A concrete sample event. -/
def sampleEvent (n : Nat) : LumaEvent :=
  { id := toString n, title := toString n, url := toString n,
    description := none, location := none, date := none, attendeeCount := none }

/-- A concrete sample result set of six events. -/
def sampleEvents : List LumaEvent := (List.range 6).map sampleEvent

/-- A concrete live pagination state at offset 0. -/
def stW0 : SearchState :=
  { events := sampleEvents, topic := "ai", location := some "london",
    offset := 0, expiresAt := 10 }

/-- The same pagination state at offset 5. -/
def stW5 : SearchState :=
  { events := sampleEvents, topic := "ai", location := some "london",
    offset := 5, expiresAt := 10 }

/-- A concrete gate environment: the proof decodes and matches, verification
succeeds, the worker succeeds, and the settlement call throws. -/
def envW : GateEnv :=
  { decodePayment := fun _ => some { payload := "p" }
    findMatching := fun reqs _ => reqs.head?
    verify := fun _ _ => some { isValid := true, invalidReason := none, payer := none }
    appFetch := fun _ => { status := 200, body := "ok" }
    settle := fun _ _ => none }

/-!
Auxiliary predicates used to state cleanliness of a text with respect to the
sanitization chain.
-/

/-- The head, if any, is not whitespace. -/
def headNotWs : List Char → Bool
  | [] => true
  | c :: _ => !(isWsChar c)

/-- The last character, if any, is not whitespace. -/
def lastNotWs (l : List Char) : Bool := headNotWs l.reverse

/-- No newline occurs in the list. -/
def nlFree (l : List Char) : Bool := l.all (fun c => !(c = '\n'))

/-- A text is clean for the sanitization chain when none of its transforms
changes it: no bulleted greeting, at most one greeting line, no blank-line
run to collapse, already trimmed, no "Hello! Here is what happened" line, no
payment fragment, no pay URL, no bracketed timestamp and no
"x402 Summariser" fragment. -/
def CleanText (l : List Char) : Prop :=
  scanFix mBulletGreeting l = true ∧
  (greetLines l).length ≤ 1 ∧
  scanFix mCollapse l = true ∧
  trimBoth l = l ∧
  scanFix mHello l = true ∧
  scanFix mPay1 l = true ∧
  scanFix mPay2 l = true ∧
  scanFix mPay3 l = true ∧
  scanFix mUrl l = true ∧
  scanFix mPayText l = true ∧
  scanFix mIsoTs l = true ∧
  scanFix mAnyTs l = true ∧
  scanFix mX402 l = true

instance (l : List Char) : Decidable (CleanText l) := by
  unfold CleanText; infer_instance

/-!
Helper lemmas about the generic scanners.
-/

theorem scanReplGo_eq_self (step : Bool → List Char → Option (Nat × List Char)) :
    ∀ (fuel : Nat) (ls : Bool) (l : List Char), l.length ≤ fuel →
      scanFixGo step fuel ls l = true → scanReplGo step fuel ls l = l := by
  intro fuel
  induction fuel with
  | zero => intro ls l _ _; rfl
  | succ f ih =>
    intro ls l hlen hfix
    match l with
    | [] => rfl
    | c :: cs =>
      cases hstep : step ls (c :: cs) with
      | some nr =>
        obtain ⟨n, r⟩ := nr
        simp only [scanFixGo, hstep, Bool.and_eq_true, decide_eq_true_eq] at hfix
        obtain ⟨hr, hrest⟩ := hfix
        simp only [scanReplGo, hstep]
        rw [ih _ _ (by simp only [List.length_drop, List.length_cons] at hlen ⊢; omega) hrest]
        rw [hr, List.take_append_drop]
      | none =>
        simp only [scanFixGo, hstep] at hfix
        simp only [scanReplGo, hstep]
        rw [ih _ _ (by simp at hlen ⊢; omega) hfix]

theorem replFirst_eq_self (step : Bool → List Char → Option (Nat × List Char)) :
    ∀ (fuel : Nat) (ls : Bool) (l : List Char), l.length ≤ fuel →
      scanFixGo step fuel ls l = true → replFirst step ls l = l := by
  intro fuel
  induction fuel with
  | zero =>
    intro ls l hlen _
    match l with
    | [] => rfl
  | succ f ih =>
    intro ls l hlen hfix
    match l with
    | [] => rfl
    | c :: cs =>
      cases hstep : step ls (c :: cs) with
      | some nr =>
        obtain ⟨n, r⟩ := nr
        simp only [scanFixGo, hstep, Bool.and_eq_true, decide_eq_true_eq] at hfix
        simp only [replFirst, hstep]
        rw [hfix.1, List.take_append_drop]
      | none =>
        simp only [scanFixGo, hstep] at hfix
        simp only [replFirst, hstep]
        rw [ih _ _ (by simp at hlen ⊢; omega) hfix]

theorem scanRepl_eq_self {step : Bool → List Char → Option (Nat × List Char)}
    {l : List Char} (h : scanFix step l = true) : scanRepl step l = l :=
  scanReplGo_eq_self step l.length true l le_rfl h

theorem replFirst_eq_self_of_fix {step : Bool → List Char → Option (Nat × List Char)}
    {l : List Char} (h : scanFix step l = true) : replFirst step true l = l :=
  replFirst_eq_self step l.length true l le_rfl h

/-!
Lemmas about line splitting and the duplicate-greeting removal.
-/

theorem splitNl_ne_nil (l : List Char) : splitNl l ≠ [] := by
  match l with
  | [] => simp [splitNl]
  | c :: cs =>
    simp only [splitNl]
    by_cases h : c = '\n'
    · simp [h]
    · simp only [h, if_false]
      cases hs : splitNl cs <;> simp

theorem joinNl_cons_cons (p : List Char) (q : List (List Char)) (c : Char) :
    joinNl ((c :: p) :: q) = c :: joinNl (p :: q) := by
  cases q with
  | nil => rfl
  | cons x xs => simp [joinNl]

theorem joinNl_splitNl (l : List Char) : joinNl (splitNl l) = l := by
  induction l with
  | nil => rfl
  | cons c cs ih =>
    simp only [splitNl]
    by_cases h : c = '\n'
    · subst h
      simp only [if_pos rfl]
      cases hs : splitNl cs with
      | nil => exact absurd hs (splitNl_ne_nil cs)
      | cons x xs =>
        simp only [joinNl]
        rw [← hs, ih]
        simp
    · simp only [h, if_false]
      cases hs : splitNl cs with
      | nil => exact absurd hs (splitNl_ne_nil cs)
      | cons x xs =>
        rw [joinNl_cons_cons, ← hs, ih]

theorem splitNl_nlFree {l : List Char} (h : nlFree l = true) : splitNl l = [l] := by
  induction l with
  | nil => rfl
  | cons c cs ih =>
    simp only [nlFree, List.all_cons, Bool.and_eq_true, Bool.not_eq_true',
      decide_eq_false_iff_not] at h
    simp only [splitNl, if_neg h.1]
    rw [ih (by simpa [nlFree] using h.2)]

theorem splitNl_append_nl {p : List Char} (t : List Char) (h : nlFree p = true) :
    splitNl (p ++ '\n' :: t) = p :: splitNl t := by
  induction p with
  | nil => simp [splitNl]
  | cons c cs ih =>
    simp only [nlFree, List.all_cons, Bool.and_eq_true, Bool.not_eq_true',
      decide_eq_false_iff_not] at h
    simp only [List.cons_append, splitNl, List.append_eq, if_neg h.1]
    rw [ih (by simpa [nlFree] using h.2)]

theorem splitNl_joinNl {ps : List (List Char)} (hne : ps ≠ [])
    (hfree : ∀ p ∈ ps, nlFree p = true) : splitNl (joinNl ps) = ps := by
  induction ps with
  | nil => exact absurd rfl hne
  | cons p q ih =>
    cases q with
    | nil =>
      simp only [joinNl]
      exact splitNl_nlFree (hfree p (by simp))
    | cons x xs =>
      simp only [joinNl]
      rw [splitNl_append_nl _ (hfree p (by simp))]
      rw [ih (by simp) (fun a ha => hfree a (List.mem_cons_of_mem _ ha))]

theorem splitNl_mem_nlFree (l : List Char) : ∀ p ∈ splitNl l, nlFree p = true := by
  induction l with
  | nil =>
    intro p hp
    simp only [splitNl, List.mem_singleton] at hp
    subst hp; rfl
  | cons c cs ih =>
    intro p hp
    by_cases h : c = '\n'
    · simp only [splitNl, if_pos h] at hp
      rcases List.mem_cons.mp hp with h1 | h1
      · subst h1; rfl
      · exact ih p h1
    · simp only [splitNl, if_neg h] at hp
      cases hs : splitNl cs with
      | nil => exact absurd hs (splitNl_ne_nil cs)
      | cons x xs =>
        rw [hs] at hp
        rcases List.mem_cons.mp hp with h1 | h1
        · subst h1
          have hx : nlFree x = true := ih x (by rw [hs]; exact List.mem_cons_self x xs)
          simp only [nlFree, List.all_cons, Bool.and_eq_true]
          refine ⟨by simp [h], ?_⟩
          exact hx
        · exact ih p (by rw [hs]; exact List.mem_cons_of_mem x h1)

theorem greetHead_nil : greetHead [] = false := rfl

theorem dedupLines_nlFree {ps : List (List Char)} (h : ∀ p ∈ ps, nlFree p = true)
    (seen : Bool) : ∀ p ∈ dedupLines seen ps, nlFree p = true := by
  induction ps generalizing seen with
  | nil => intro p hp; simp [dedupLines] at hp
  | cons q qs ih =>
    intro p hp
    have hq : nlFree q = true := h q (List.mem_cons_self q qs)
    have hqs : ∀ a ∈ qs, nlFree a = true := fun a ha => h a (List.mem_cons_of_mem q ha)
    simp only [dedupLines] at hp
    by_cases hg : greetHead q = true
    · rw [if_pos hg] at hp
      cases seen with
      | true =>
        rw [if_pos rfl] at hp
        rcases List.mem_cons.mp hp with h1 | h1
        · subst h1; rfl
        · exact ih hqs true p h1
      | false =>
        rw [if_neg (by simp)] at hp
        rcases List.mem_cons.mp hp with h1 | h1
        · subst h1; exact hq
        · exact ih hqs true p h1
    · rw [if_neg hg] at hp
      rcases List.mem_cons.mp hp with h1 | h1
      · subst h1; exact hq
      · exact ih hqs seen p h1

theorem dedupLines_ne_nil {ps : List (List Char)} (h : ps ≠ []) (seen : Bool) :
    dedupLines seen ps ≠ [] := by
  match ps with
  | [] => exact absurd rfl h
  | q :: qs =>
    simp only [dedupLines]
    by_cases hg : greetHead q <;> cases seen <;> simp [hg]

theorem dedupLines_filter_true (ps : List (List Char)) :
    (dedupLines true ps).filter greetHead = [] := by
  induction ps with
  | nil => rfl
  | cons q qs ih =>
    simp only [dedupLines]
    by_cases hg : greetHead q
    · simp [hg, List.filter, greetHead_nil, ih]
    · simp [List.filter, hg, ih]

theorem dedupLines_filter_false (ps : List (List Char)) :
    (dedupLines false ps).filter greetHead = (ps.filter greetHead).take 1 := by
  induction ps with
  | nil => rfl
  | cons q qs ih =>
    simp only [dedupLines]
    by_cases hg : greetHead q
    · simp only [hg, if_true, if_neg (by simp : ¬ (false = true))]
      simp [List.filter, hg, dedupLines_filter_true]
    · simp only [hg, if_false]
      simp [List.filter, hg, ih]

theorem dedupLines_id_no_greet {ps : List (List Char)}
    (h : ps.filter greetHead = []) (seen : Bool) : dedupLines seen ps = ps := by
  induction ps generalizing seen with
  | nil => rfl
  | cons q qs ih =>
    by_cases hg : greetHead q = true
    · rw [List.filter_cons_of_pos hg] at h
      exact absurd h (by simp)
    · rw [List.filter_cons_of_neg hg] at h
      simp only [dedupLines, if_neg hg]
      rw [ih h seen]

theorem dedupLines_id {ps : List (List Char)}
    (h : (ps.filter greetHead).length ≤ 1) : dedupLines false ps = ps := by
  induction ps with
  | nil => rfl
  | cons q qs ih =>
    by_cases hg : greetHead q = true
    · have hz : qs.filter greetHead = [] := by
        rw [List.filter_cons_of_pos hg] at h
        simp only [List.length_cons] at h
        exact List.length_eq_zero.mp (by omega)
      simp only [dedupLines, if_pos hg, if_neg (by simp : ¬ (false = true))]
      rw [dedupLines_id_no_greet hz true]
    · simp only [dedupLines, if_neg hg]
      rw [ih (by rw [List.filter_cons_of_neg hg] at h; exact h)]

theorem dedupGreetings_id {l : List Char}
    (h : (greetLines l).length ≤ 1) : dedupGreetings l = l := by
  unfold dedupGreetings
  rw [dedupLines_id (by simpa [greetLines] using h), joinNl_splitNl]

theorem greetLines_dedupGreetings (l : List Char) :
    greetLines (dedupGreetings l) = (greetLines l).take 1 := by
  unfold dedupGreetings greetLines
  rw [splitNl_joinNl (dedupLines_ne_nil (splitNl_ne_nil l) false)
    (dedupLines_nlFree (splitNl_mem_nlFree l) false)]
  exact dedupLines_filter_false (splitNl l)

/-!
Lemmas about trimming.
-/

theorem trimL_headNotWs (l : List Char) : headNotWs (trimL l) = true := by
  induction l with
  | nil => rfl
  | cons c cs ih =>
    simp only [trimL]
    by_cases h : isWsChar c = true
    · rwa [if_pos h]
    · rw [if_neg h]
      simp [headNotWs, h]

theorem trimL_eq_self {l : List Char} (h : headNotWs l = true) : trimL l = l := by
  match l with
  | [] => rfl
  | c :: cs =>
    simp only [headNotWs, Bool.not_eq_true'] at h
    simp [trimL, h]

theorem trimL_eq_drop (l : List Char) : ∃ n, trimL l = l.drop n := by
  induction l with
  | nil => exact ⟨0, rfl⟩
  | cons c cs ih =>
    by_cases h : isWsChar c = true
    · obtain ⟨n, hn⟩ := ih
      exact ⟨n + 1, by simp [trimL, h, hn]⟩
    · exact ⟨0, by simp [trimL, h]⟩

theorem headNotWs_take {l : List Char} (h : headNotWs l = true) (m : Nat) :
    headNotWs (l.take m) = true := by
  match l, m with
  | [], _ => simp [headNotWs]
  | _ :: _, 0 => rfl
  | c :: cs, m + 1 => simpa [headNotWs] using h

theorem trimR_eq_take (l : List Char) : ∃ n, trimR l = l.take n := by
  obtain ⟨n, hn⟩ := trimL_eq_drop l.reverse
  refine ⟨l.length - n, ?_⟩
  rw [trimR, hn, List.reverse_drop, List.reverse_reverse]
  simp [List.length_reverse]

theorem trimR_headNotWs {l : List Char} (h : headNotWs l = true) :
    headNotWs (trimR l) = true := by
  obtain ⟨n, hn⟩ := trimR_eq_take l
  rw [hn]
  exact headNotWs_take h n

theorem trimR_lastNotWs (l : List Char) : lastNotWs (trimR l) = true := by
  unfold lastNotWs trimR
  rw [List.reverse_reverse]
  exact trimL_headNotWs l.reverse

theorem trimR_eq_self {l : List Char} (h : lastNotWs l = true) : trimR l = l := by
  unfold trimR
  rw [trimL_eq_self h, List.reverse_reverse]

theorem trimBoth_headNotWs (l : List Char) : headNotWs (trimBoth l) = true :=
  trimR_headNotWs (trimL_headNotWs l)

theorem trimBoth_lastNotWs (l : List Char) : lastNotWs (trimBoth l) = true :=
  trimR_lastNotWs (trimL l)

theorem trimBoth_eq_self {l : List Char} (h1 : headNotWs l = true)
    (h2 : lastNotWs l = true) : trimBoth l = l := by
  unfold trimBoth
  rw [trimL_eq_self h1, trimR_eq_self h2]

theorem trimBoth_idem (l : List Char) : trimBoth (trimBoth l) = trimBoth l :=
  trimBoth_eq_self (trimBoth_headNotWs l) (trimBoth_lastNotWs l)

theorem trimBoth_ne_nil {l : List Char} (h : trimBoth l ≠ []) :
    trimBoth (trimBoth l) ≠ [] := by
  rwa [trimBoth_idem]

/-!
Lemmas about the JS-Map model.
-/

theorem rget_rdelete_self {κ α : Type} [DecidableEq κ]
    (m : List (κ × α)) (k : κ) : rget (rdelete m k) k = none := by
  induction m with
  | nil => rfl
  | cons p ps ih =>
    simp only [rdelete]
    by_cases h : p.1 = k
    · rwa [if_pos h]
    · rw [if_neg h]
      simp only [rget, if_neg h]
      exact ih

theorem rget_rset_self {κ α : Type} [DecidableEq κ]
    (m : List (κ × α)) (k : κ) (v : α) : rget (rset m k v) k = some v := by
  induction m with
  | nil => simp [rset, rget]
  | cons p ps ih =>
    simp only [rset]
    by_cases h : p.1 = k
    · rw [if_pos h]; simp [rget]
    · rw [if_neg h]
      simp only [rget, if_neg h]
      exact ih

theorem rget_rset_other {κ α : Type} [DecidableEq κ]
    (m : List (κ × α)) (k k' : κ) (v : α) (hne : k ≠ k') :
    rget (rset m k v) k' = rget m k' := by
  induction m with
  | nil => simp [rset, rget, hne]
  | cons p ps ih =>
    simp only [rset]
    by_cases h : p.1 = k
    · rw [if_pos h]
      simp only [rget]
      rw [if_neg hne, if_neg (show ¬ p.1 = k' by rw [h]; exact hne)]
    · rw [if_neg h]
      simp only [rget]
      by_cases h2 : p.1 = k'
      · rw [if_pos h2, if_pos h2]
      · rw [if_neg h2, if_neg h2]
        exact ih

theorem rget_filter_none {κ α : Type} [DecidableEq κ]
    (m : List (κ × α)) (k : κ) (pred : κ × α → Bool)
    (h : ∀ p ∈ m, p.1 = k → pred p = false) :
    rget (m.filter pred) k = none := by
  induction m with
  | nil => rfl
  | cons p ps ih =>
    have hps : ∀ q ∈ ps, q.1 = k → pred q = false :=
      fun q hq => h q (List.mem_cons_of_mem p hq)
    by_cases hp : pred p = true
    · rw [List.filter_cons_of_pos hp]
      simp only [rget]
      have : ¬ p.1 = k := by
        intro hk
        rw [h p (List.mem_cons_self p ps) hk] at hp
        exact Bool.false_ne_true hp
      rw [if_neg this]
      exact ih hps
    · rw [List.filter_cons_of_neg hp]
      exact ih hps

/-!
Lemmas about the Telegram message store cap.
-/

theorem length_capTail {α : Type} (l : List α) :
    (capTail l).length ≤ MAX_MESSAGES_PER_CHAT := by
  simp only [capTail, List.length_drop]
  omega

theorem capTail_eq_of_le {α : Type} {l : List α}
    (h : l.length ≤ MAX_MESSAGES_PER_CHAT) : capTail l = l := by
  simp only [capTail]
  rw [Nat.sub_eq_zero_of_le h, List.drop_zero]

theorem capTail_append_single {α : Type} (s : List α) (a : α) :
    capTail (capTail s ++ [a]) = capTail (s ++ [a]) := by
  by_cases h : s.length ≤ MAX_MESSAGES_PER_CHAT
  · rw [capTail_eq_of_le h]
  · push_neg at h
    have h1 : (capTail s).length = MAX_MESSAGES_PER_CHAT := by
      simp only [capTail, List.length_drop]; omega
    have hM : 0 < MAX_MESSAGES_PER_CHAT := by decide
    simp only [capTail, List.length_append, List.length_drop, List.length_cons,
      List.length_nil]
    have e1 : s.length - (s.length - MAX_MESSAGES_PER_CHAT) + (0 + 1) -
        MAX_MESSAGES_PER_CHAT = 1 := by omega
    have e2 : s.length + (0 + 1) - MAX_MESSAGES_PER_CHAT =
        (s.length - MAX_MESSAGES_PER_CHAT) + 1 := by omega
    rw [e1, e2]
    rw [List.drop_append_of_le_length
      (by simp only [List.length_drop]; omega)]
    rw [List.drop_append_of_le_length (by omega)]
    rw [List.drop_drop]

theorem addTelegramMessage_get_self (store : List (Int × List TelegramStoredMessage))
    (chatId : Int) (m : TelegramStoredMessage) :
    getTelegramMessages (addTelegramMessage store chatId m) chatId
      = capTail (getTelegramMessages store chatId ++ [m]) := by
  unfold addTelegramMessage getTelegramMessages
  rw [rget_rset_self]
  simp only [Option.getD_some]
  by_cases h : MAX_MESSAGES_PER_CHAT < ((rget store chatId).getD [] ++ [m]).length
  · rw [if_pos h]; rfl
  · rw [if_neg h]
    rw [capTail_eq_of_le (by omega)]

theorem addTelegramMessage_get_other (store : List (Int × List TelegramStoredMessage))
    (c c' : Int) (m : TelegramStoredMessage) (h : c ≠ c') :
    getTelegramMessages (addTelegramMessage store c m) c'
      = getTelegramMessages store c' := by
  unfold addTelegramMessage getTelegramMessages
  rw [rget_rset_other _ _ _ _ h]

theorem chatSeq_append_single (ops : List (Int × TelegramStoredMessage))
    (op : Int × TelegramStoredMessage) (chatId : Int) :
    chatSeq (ops ++ [op]) chatId
      = chatSeq ops chatId ++ (if op.1 = chatId then [op.2] else []) := by
  simp only [chatSeq, List.filterMap_append]
  by_cases h : op.1 = chatId
  · simp [h, List.filterMap]
  · simp [h, List.filterMap]

theorem replayAdds_concat (ops : List (Int × TelegramStoredMessage))
    (op : Int × TelegramStoredMessage) :
    replayAdds (ops ++ [op]) = addTelegramMessage (replayAdds ops) op.1 op.2 :=
  List.foldl_concat _ _ _ _

theorem replayAdds_get (ops : List (Int × TelegramStoredMessage)) (chatId : Int) :
    getTelegramMessages (replayAdds ops) chatId = capTail (chatSeq ops chatId) := by
  induction ops using List.reverseRecOn with
  | nil => simp [replayAdds, getTelegramMessages, chatSeq, capTail, rget]
  | append_singleton ops op ih =>
    rw [replayAdds_concat, chatSeq_append_single]
    by_cases h : op.1 = chatId
    · rw [if_pos h, h]
      rw [addTelegramMessage_get_self, ih]
      exact capTail_append_single _ _
    · rw [if_neg h]
      rw [addTelegramMessage_get_other _ _ _ _ h, ih]
      simp

/-!
The last step of each sanitization chain is a trim, so trimming its output
again changes nothing.
-/

theorem trimBoth_sanitizeCommonL (l : List Char) :
    trimBoth (sanitizeCommonL l) = sanitizeCommonL l := by
  simp only [sanitizeCommonL]
  exact trimBoth_idem _

theorem trimBoth_sanitizeDiscordL (l : List Char) :
    trimBoth (sanitizeDiscordL l) = sanitizeDiscordL l := by
  simp only [sanitizeDiscordL]
  exact trimBoth_idem _

set_option maxRecDepth 4000

/-!
Claim theorems.
-/

/-- C1: each callback dispatcher posts to the platform only when the token
is present in the pending registry; the entry is removed in the consuming
step, so the resulting registry no longer holds the token; a call with an
absent token returns NotFound, changes nothing and makes zero platform
calls; and delivering the same (token, result) twice initiates exactly one
platform post in total (one when the token was pending, none otherwise). -/
theorem C1_single_delivery :
    (∀ (reg : List (String × DiscordCallbackData)) (t s : String),
      (rget reg t = none →
        handleDiscordCallbackM reg t s = (reg, .notFound)) ∧
      ((handleDiscordCallbackM reg t s).2 ≠ .notFound →
        rget (handleDiscordCallbackM reg t s).1 t = none) ∧
      postsOf (handleDiscordCallbackM reg t s).2 +
        postsOf (handleDiscordCallbackM (handleDiscordCallbackM reg t s).1 t s).2
        = (if (rget reg t).isSome then 1 else 0)) ∧
    (∀ (reg : List (String × TelegramCallbackData)) (sst : List (Int × SearchState))
        (now : Int) (t : String) (out : TgWorkerOutput),
      (rget reg t = none →
        handleTelegramCallbackM reg sst now t out = (reg, sst, .notFound)) ∧
      ((handleTelegramCallbackM reg sst now t out).2.2 ≠ .notFound →
        rget (handleTelegramCallbackM reg sst now t out).1 t = none) ∧
      postsOf (handleTelegramCallbackM reg sst now t out).2.2 +
        postsOf (handleTelegramCallbackM (handleTelegramCallbackM reg sst now t out).1
          (handleTelegramCallbackM reg sst now t out).2.1 now t out).2.2
        = (if (rget reg t).isSome then 1 else 0)) := by
  constructor
  · intro reg t s
    cases hg : rget reg t with
    | none =>
      have h1 : handleDiscordCallbackM reg t s = (reg, .notFound) := by
        simp [handleDiscordCallbackM, hg]
      refine ⟨fun _ => h1, ?_, ?_⟩
      · intro hne
        rw [h1] at hne
        exact absurd rfl hne
      · rw [h1]
        simp [h1, postsOf, hg]
    | some cd =>
      have h1 : handleDiscordCallbackM reg t s
          = (rdelete reg t, .delivered (discordContent s)) := by
        simp [handleDiscordCallbackM, hg]
      have h2 : handleDiscordCallbackM (rdelete reg t) t s = (rdelete reg t, .notFound) := by
        simp [handleDiscordCallbackM, rget_rdelete_self]
      refine ⟨?_, ?_, ?_⟩
      · intro hnone
        cases hnone
      · intro _
        rw [h1]
        exact rget_rdelete_self reg t
      · rw [h1]
        simp [h2, postsOf, hg]
  · intro reg sst now t out
    cases hg : rget reg t with
    | none =>
      have h1 : handleTelegramCallbackM reg sst now t out = (reg, sst, .notFound) := by
        simp [handleTelegramCallbackM, hg]
      refine ⟨fun _ => h1, ?_, ?_⟩
      · intro hne
        rw [h1] at hne
        exact absurd rfl hne
      · rw [h1]
        simp [h1, postsOf, hg]
    | some cd =>
      obtain ⟨txt, sst', h1⟩ : ∃ txt sst',
          handleTelegramCallbackM reg sst now t out
            = (rdelete reg t, sst', .delivered txt) := by
        cases ht : cd.topic with
        | some tp =>
          exact ⟨telegramSearchText out, telegramSearchStateUpdate sst now cd tp out,
            by simp [handleTelegramCallbackM, hg, ht]⟩
        | none =>
          exact ⟨telegramSummariseText (firstSome out.summary out.text), sst,
            by simp [handleTelegramCallbackM, hg, ht]⟩
      have h2 : handleTelegramCallbackM (rdelete reg t) sst' now t out
          = (rdelete reg t, sst', .notFound) := by
        simp [handleTelegramCallbackM, rget_rdelete_self]
      refine ⟨?_, ?_, ?_⟩
      · intro hnone
        cases hnone
      · intro _
        rw [h1]
        exact rget_rdelete_self reg t
      · rw [h1]
        simp [h2, postsOf, hg]

/-- C1 witness: an unknown token "abc123" on an empty registry returns
NotFound with zero posts, and a pending token delivers exactly once across
two identical callbacks. -/
theorem C1_single_delivery_witness :
    handleDiscordCallbackM [] "abc123" "hello" = ([], .notFound) ∧
    (postsOf (handleTelegramCallbackM [("tok", tgEntryW)] [] 0 "tok" outW).2.2 +
      postsOf (handleTelegramCallbackM
        (handleTelegramCallbackM [("tok", tgEntryW)] [] 0 "tok" outW).1
        (handleTelegramCallbackM [("tok", tgEntryW)] [] 0 "tok" outW).2.1
        0 "tok" outW).2.2
      = (if (rget [("tok", tgEntryW)] "tok").isSome then 1 else 0)) :=
  ⟨(C1_single_delivery.1 [] "abc123" "hello").1 rfl,
   (C1_single_delivery.2 [("tok", tgEntryW)] [] 0 "tok" outW).2.2⟩

/-- C2 fails on the code: neither handleTelegramCallback nor
handleDiscordCallback compares expiresAt with the clock before consuming —
they branch only on Map.get, and the Discord handler does not read the time
at all — so at a callback time of 2000, past both entries' expiry of 1000,
an entry the sweep has not yet removed is still consumed and delivered with
one platform post each, not NotFound. -/
theorem C2_counterexample :
    tgEntryW.expiresAt < 2000 ∧ dcEntryW.expiresAt < 2000 ∧
    (handleTelegramCallbackM [("tok", tgEntryW)] [] 2000 "tok" outW).2.2
      ≠ CbOutcome.notFound ∧
    postsOf (handleTelegramCallbackM [("tok", tgEntryW)] [] 2000 "tok" outW).2.2
      = 1 ∧
    (handleDiscordCallbackM [("tok", dcEntryW)] "tok" "All quiet.").2
      ≠ CbOutcome.notFound ∧
    postsOf (handleDiscordCallbackM [("tok", dcEntryW)] "tok" "All quiet.").2
      = 1 := by decide

/-- C2 amended: an expired entry becomes unreachable only through the sweep;
once the periodic sweep has run at a time past the entry's expiresAt, a
callback on its token signals NotFound, delivers nothing, and changes
nothing. -/
theorem C2_amended_expired_unreachable_after_sweep
    (regT : List (String × TelegramCallbackData)) (sst : List (Int × SearchState))
    (regD : List (String × DiscordCallbackData))
    (now now' : Int) (t : String) (out : TgWorkerOutput) (s : String)
    (hT : ∀ p ∈ regT, p.1 = t → p.2.expiresAt < now)
    (hD : ∀ p ∈ regD, p.1 = t → p.2.expiresAt < now) :
    handleTelegramCallbackM (sweepTelegram regT now) sst now' t out
      = (sweepTelegram regT now, sst, .notFound) ∧
    handleDiscordCallbackM (sweepDiscord regD now) t s
      = (sweepDiscord regD now, .notFound) := by
  have h1 : rget (sweepTelegram regT now) t = none := by
    apply rget_filter_none
    intro p hp hk
    simp [hT p hp hk]
  have h2 : rget (sweepDiscord regD now) t = none := by
    apply rget_filter_none
    intro p hp hk
    simp [hD p hp hk]
  constructor
  · simp [handleTelegramCallbackM, h1]
  · simp [handleDiscordCallbackM, h2]

/-- C2 amended witness: the expired entry from the counterexample resolves
to NotFound once the sweep has run. -/
theorem C2_amended_witness :
    handleTelegramCallbackM (sweepTelegram [("tok", tgEntryW)] 2000) [] 0 "tok" outW
      = (sweepTelegram [("tok", tgEntryW)] 2000, [], .notFound) :=
  (C2_amended_expired_unreachable_after_sweep [("tok", tgEntryW)] [] [] 2000 0
    "tok" outW "s" (by decide) (by decide)).1

/-- C3 fails on the code: the intake records a PendingEntry with a plain JS
Map.set, which silently replaces an existing entry for the same token
instead of failing. -/
theorem C3_counterexample :
    rget (recordPendingTelegram [("tok", tgEntryW)] "tok" tgEntryW2) "tok"
      = some tgEntryW2 ∧ tgEntryW2 ≠ tgEntryW := by decide

/-- C3 amended: the registry insertion of Command Intake overwrites
unconditionally — after recording, the token maps to the new entry on both
platforms; no failure is signalled, and uniqueness rests on the token
construction (chat id, timestamp, random UUID), not on a presence check. -/
theorem C3_amended_put_overwrites
    (regT : List (String × TelegramCallbackData))
    (regD : List (String × DiscordCallbackData)) (t : String)
    (eT : TelegramCallbackData) (eD : DiscordCallbackData) :
    rget (recordPendingTelegram regT t eT) t = some eT ∧
    rget (recordPendingDiscord regD t eD) t = some eD :=
  ⟨rget_rset_self regT t eT, rget_rset_self regD t eD⟩

/-- C4 fails on the code: the "Hello! Here is what happened" removal is a
first-match-only replace, so a text with two such lines loses one line per
application of the chain and a second application changes the result. -/
theorem C4_counterexample :
    sanitizeDiscord (sanitizeDiscord
        "Hello!Here is what happened\nHello!Here is what happened")
      ≠ sanitizeDiscord
        "Hello!Here is what happened\nHello!Here is what happened" := by decide

/-- C4 amended: the chain is not idempotent in general, because its
first-match-only transforms remove one occurrence per application; what
holds is that already-clean text — text with no bulleted greeting, at most
one greeting line, no blank-line run, no leading or trailing whitespace, no
"Hello! Here is what happened" line, no payment fragment, no pay URL, no
bracketed timestamp and no "x402 Summariser" fragment — is left unchanged
by the whole chain. -/
theorem C4_amended_clean_text_fixed (s : String) (h : CleanText s.data) :
    sanitizeDiscord s = s := by
  obtain ⟨h1, h2, h3, h4, h5, h6, h7, h8, h9, h10, h11, h12, h13⟩ := h
  simp only [sanitizeDiscord, sanitizeDiscordL, sanitizeCommonL]
  rw [replFirst_eq_self_of_fix h1, dedupGreetings_id h2, scanRepl_eq_self h3, h4,
      replFirst_eq_self_of_fix h5, scanRepl_eq_self h6, scanRepl_eq_self h7,
      scanRepl_eq_self h8, scanRepl_eq_self h9, scanRepl_eq_self h10, h4,
      scanRepl_eq_self h11, scanRepl_eq_self h12, scanRepl_eq_self h13, h4]

/-- C4 amended witness: a concrete clean text is a fixed point of the chain. -/
theorem C4_amended_clean_text_fixed_witness :
    CleanText ("Good morning! Team sync at noon." : String).data ∧
    sanitizeDiscord "Good morning! Team sync at noon."
      = "Good morning! Team sync at noon." :=
  ⟨by decide, C4_amended_clean_text_fixed "Good morning! Team sync at noon." (by decide)⟩

/-- C5 fails on the code as universally stated: the duplicate-greeting
removal only matches greetings at line starts, so a duplicate that is still
bulleted survives the chain and the delivered text contains the greeting
twice.  The input below contains the greeting line twice (both bulleted);
the first bullet is fixed, the second survives, and the delivered Telegram
text contains the greeting twice, not exactly once. -/
theorem C5_counterexample :
    2 ≤ occCount ("Good morning! A" : String).data
        ("• Good morning! A\n• Good morning! A" : String).data ∧
    occCount ("Good morning! A" : String).data
        (telegramSummariseText "• Good morning! A\n• Good morning! A").data
      = 2 := by decide

/-- C5 amended: the duplicate-greeting removal step keeps exactly the first
line-start greeting line and deletes the content of every later line-start
greeting line, so after that step the greeting lines are precisely the
first one of the input; duplicates that are not at a line start (for
example still bulleted or indented) are outside its reach. -/
theorem C5_amended_dedup_keeps_first (l : List Char) :
    greetLines (dedupGreetings l) = (greetLines l).take 1 :=
  greetLines_dedupGreetings l

/-- C6: when sanitization leaves an empty summary the dispatcher substitutes
the canned no-content message, and the delivered message text is never the
empty string, on either platform. -/
theorem C6_no_empty_delivery (s : String) :
    (sanitizeCommonL (trimBoth s.data) = [] →
      telegramSummariseText s = NO_CONTENT) ∧
    telegramSummariseText s ≠ "" ∧
    (sanitizeDiscordL (discordRawSummary s.data) = [] →
      discordContent s = NO_CONTENT) ∧
    discordContent s ≠ "" := by
  have hcanned : trimBoth NO_CONTENT.data = NO_CONTENT.data := by decide
  refine ⟨?_, ?_, ?_, ?_⟩
  · intro hc
    have htext : telegramSummariseTextL s.data = trimBoth NO_CONTENT.data := by
      simp [telegramSummariseTextL, hc]
    show String.mk (telegramSummariseTextL s.data) = NO_CONTENT
    rw [htext, hcanned]
  · intro h
    have hmk : String.mk (telegramSummariseTextL s.data) = String.mk [] := h
    have hdata : telegramSummariseTextL s.data = ([] : List Char) := by injection hmk
    by_cases hc : sanitizeCommonL (trimBoth s.data) = []
    · have htext : telegramSummariseTextL s.data = trimBoth NO_CONTENT.data := by
        simp [telegramSummariseTextL, hc]
      rw [htext, hcanned] at hdata
      exact absurd hdata (by decide)
    · have htext : telegramSummariseTextL s.data = sanitizeCommonL (trimBoth s.data) := by
        simp [telegramSummariseTextL, hc, trimBoth_sanitizeCommonL]
      rw [htext] at hdata
      exact hc hdata
  · intro hc
    have htext : discordContentL s.data = trimBoth NO_CONTENT.data := by
      simp [discordContentL, hc]
    show String.mk (discordContentL s.data) = NO_CONTENT
    rw [htext, hcanned]
  · intro h
    have hmk : String.mk (discordContentL s.data) = String.mk [] := h
    have hdata : discordContentL s.data = ([] : List Char) := by injection hmk
    by_cases hc : sanitizeDiscordL (discordRawSummary s.data) = []
    · have htext : discordContentL s.data = trimBoth NO_CONTENT.data := by
        simp [discordContentL, hc]
      rw [htext, hcanned] at hdata
      exact absurd hdata (by decide)
    · have htext : discordContentL s.data = sanitizeDiscordL (discordRawSummary s.data) := by
        simp [discordContentL, hc, trimBoth_sanitizeDiscordL]
      rw [htext] at hdata
      exact hc hdata

/-- C6 witness: a summary that sanitizes to nothing is delivered as the
canned no-content message on both platforms. -/
theorem C6_no_empty_delivery_witness :
    sanitizeCommonL (trimBoth ("Hello!Here is what happened" : String).data) = [] ∧
    telegramSummariseText "Hello!Here is what happened" = NO_CONTENT ∧
    discordContent "Hello!Here is what happened" = NO_CONTENT :=
  ⟨by decide,
   (C6_no_empty_delivery "Hello!Here is what happened").1 (by decide),
   (C6_no_empty_delivery "Hello!Here is what happened").2.2.1 (by decide)⟩

/-- C7: on a live pagination state the /more advance never decreases the
offset; when offset+5 is still before the end it replies with the slice
events[offset+5 .. offset+10), moves the offset to offset+5 and extends the
expiry; when offset+5 reaches or passes the end it replies with the
"seen all events" message, leaves the state unchanged, and is not an
error. -/
theorem C7_more_advance (st : SearchState) (now : Int)
    (hlive : ¬ st.expiresAt < now) :
    (st.offset + 5 < st.events.length →
      handleMore (some st) now =
        (some { st with offset := st.offset + 5, expiresAt := now + 60 * 60 * 1000 },
          .page (jsSlice st.events (st.offset + 5) (st.offset + 10))
            st.events.length (st.offset + 5))) ∧
    (st.events.length ≤ st.offset + 5 →
      handleMore (some st) now = (some st, .exhausted)) ∧
    (∃ st', (handleMore (some st) now).1 = some st' ∧ st.offset ≤ st'.offset) := by
  refine ⟨?_, ?_, ?_⟩
  · intro hlt
    have harith : st.offset + 5 + 5 = st.offset + 10 := by omega
    simp only [handleMore, if_neg hlive, if_neg (show ¬ st.events.length ≤ st.offset + 5 by omega),
      harith]
  · intro hge
    simp only [handleMore, if_neg hlive, if_pos hge]
  · by_cases hc : st.events.length ≤ st.offset + 5
    · exact ⟨st, by simp only [handleMore, if_neg hlive, if_pos hc], le_rfl⟩
    · refine ⟨{ st with offset := st.offset + 5, expiresAt := now + 60 * 60 * 1000 },
        by simp only [handleMore, if_neg hlive, if_neg hc],
        by show st.offset ≤ st.offset + 5; omega⟩

/-- C7 witness: a live state with six events at offset 0 advances to the
slice events[5 .. 10) with offset 5; at offset 5 a further advance replies
exhausted and keeps the state. -/
theorem C7_more_advance_witness :
    handleMore (some stW0) 5
      = (some { stW0 with offset := stW0.offset + 5, expiresAt := 5 + 60 * 60 * 1000 },
        .page (jsSlice stW0.events (stW0.offset + 5) (stW0.offset + 10))
          stW0.events.length (stW0.offset + 5)) ∧
    handleMore (some stW5) 5 = (some stW5, .exhausted) :=
  ⟨(C7_more_advance stW0 5 (by decide)).1 (by decide),
   (C7_more_advance stW5 5 (by decide)).2.1 (by decide)⟩

/-- C8: an invocation of the payment-gated entrypoint without an X-PAYMENT
header yields the 402 challenge whose accepts list holds exactly one
requirement, and the worker is not invoked (zero app.fetch calls). -/
theorem C8_no_header_challenge (env : GateEnv)
    (sourceLabel payToAddress fullEntrypointUrl price currency : String) :
    ∃ reqs : List PaymentRequirement,
      entrypointGate env sourceLabel payToAddress fullEntrypointUrl price currency none
        = (.paymentRequired reqs, 0) ∧
      reqs.length = 1 ∧
      gateStatus (.paymentRequired reqs) = 402 :=
  ⟨[mkPaymentRequirement sourceLabel payToAddress fullEntrypointUrl price currency],
    rfl, rfl, rfl⟩

/-- C9: when the proof decodes, matches and verifies, and the worker
succeeds (status below 400), a thrown or unsuccessful settlement does not
change the returned result: the worker body comes back with the worker
status and only the X-PAYMENT-RESPONSE header is omitted. -/
theorem C9_settlement_best_effort (env : GateEnv)
    (sourceLabel payToAddress fullEntrypointUrl price currency h : String)
    (payment : DecodedPayment) (selected : PaymentRequirement) (v : VerifyResult)
    (hdec : env.decodePayment h = some payment)
    (hmatch : env.findMatching
      [mkPaymentRequirement sourceLabel payToAddress fullEntrypointUrl price currency]
      payment = some selected)
    (hver : env.verify payment selected = some v)
    (hvalid : v.isValid = true)
    (hworker : (env.appFetch ()).status < 400)
    (hsettle : env.settle payment selected = none ∨
      ∃ st, env.settle payment selected = some st ∧ st.success = false) :
    entrypointGate env sourceLabel payToAddress fullEntrypointUrl price currency (some h)
      = (.result (env.appFetch ()).status (env.appFetch ()).body none, 1) := by
  simp only [entrypointGate, hdec, hmatch, hver, hvalid, if_true]
  rw [if_neg (show ¬ 400 ≤ (env.appFetch ()).status by omega)]
  rcases hsettle with hs | ⟨st, hs, hsf⟩
  · simp [hs]
  · simp [hs, hsf]

/-- C9 witness: in a concrete environment whose settlement call throws, the
gate still returns the successful worker result without the settlement
header. -/
theorem C9_settlement_best_effort_witness :
    entrypointGate envW "L" "a" "u" "0.05" "USDC" (some "hdr")
      = (.result 200 "ok" none, 1) :=
  C9_settlement_best_effort envW "L" "a" "u" "0.05" "USDC" "hdr"
    { payload := "p" } (mkPaymentRequirement "L" "a" "u" "0.05" "USDC")
    { isValid := true, invalidReason := none, payer := none }
    rfl rfl rfl rfl (by decide) (Or.inl rfl)

/-- C10: after any sequence of addTelegramMessage calls, the store holds for
each chat exactly the suffix of the messages added to that chat beyond the
cap — the most recently added ones, in insertion order — and hence at most
1000 messages. -/
theorem C10_store_cap (ops : List (Int × TelegramStoredMessage)) (chatId : Int) :
    getTelegramMessages (replayAdds ops) chatId
      = (chatSeq ops chatId).drop ((chatSeq ops chatId).length - 1000) ∧
    (getTelegramMessages (replayAdds ops) chatId).length ≤ 1000 := by
  have h := replayAdds_get ops chatId
  constructor
  · exact h
  · rw [h]
    exact length_capTail _
